import Mathlib

/-!
Shallow embedding of the Consolidation Orchestrator of the
midnight_fetcher_bot repository:
  * the consolidate endpoint (`POST /api/wallet/consolidate`) with its
    bounded-retry, exponential-backoff submission client `postDonateTo`, and
  * the consolidation-proofs endpoint
    (`POST /api/wallet/consolidation-proofs`).

JavaScript numbers are modelled as `JSNum` (a finite rational or a
non-finite value); request fields that may be absent are `Option`s; the
wallet capability (`loadWallet`, `signMessage`) and the remote rewards
service are oracle parameters; `fetch` outcomes are either an HTTP response
or a thrown network exception.  The JSON decoding of a response body
(`JSON.parse` with the `{raw: text}` fallback) is abstracted: a response
carries its already-decoded structured payload, since no property proved
here depends on the decoder itself.  Side effects (signing calls, network
calls, backoff sleeps) are reified as a trace of events returned next to
the response.
-/

/-- A JavaScript number: a finite (double-precision, hence rational) value,
or one of the non-finite values `NaN` / `±Infinity`.  The arithmetic the
code performs on these (`Math.max`, doubling) is exact on doubles in the
ranges involved, so rationals are a faithful carrier. -/
inductive JSNum where
  | finite (q : ℚ)
  | nan
  | inf
  | negInf
  deriving Repr, DecidableEq

/-- `Number.isInteger` on a possibly-absent value (absent = `undefined`). -/
def jsIsInteger : Option JSNum → Bool
  | some (JSNum.finite q) => q.den == 1
  | _ => false

/-- `Number.isFinite` on a possibly-absent value (absent = `undefined`). -/
def jsIsFinite : Option JSNum → Bool
  | some (JSNum.finite _) => true
  | _ => false

/-- Structured payload attached to a response or error, as the route code
produces it: a decoded JSON document (abstracted to its source text), the
`{raw: text}` fallback of a failed `JSON.parse`, or an `{error: msg}`
object built by the error paths. -/
inductive RespData where
  | json (s : String)
  | raw (s : String)
  | errorMsg (s : String)
  deriving Repr, DecidableEq

/-- Outcome of one `fetch` attempt: an HTTP response (status plus decoded
body payload) or a thrown network-level exception carrying `err.message`. -/
inductive FetchOutcome where
  | response (status : Nat) (data : RespData)
  | exception (msg : String)
  deriving Repr, DecidableEq

/-- The value `postDonateTo` resolves with: `{status, data}`. -/
structure DonateResult where
  status : Nat
  data : RespData
  deriving Repr, DecidableEq

/-- `res.ok` of the Fetch API: status in the inclusive range 200–299. -/
def resOk (s : Nat) : Bool := decide (200 ≤ s ∧ s ≤ 299)

/-- `err?.message || 'Network error'`: an empty (falsy) message is replaced
by the fallback string. -/
def orNetworkError (msg : String) : String :=
  if msg = "" then "Network error" else msg

/-- The final `{status, data}` value `postDonateTo` produces for a given
last attempt outcome: the response itself, or `{status: 0, data: {error:
err?.message || 'Network error'}}` for an exception. -/
def finalResult : FetchOutcome → DonateResult
  | FetchOutcome.response status data => ⟨status, data⟩
  | FetchOutcome.exception msg => ⟨0, RespData.errorMsg (orNetworkError msg)⟩

/-- Whether an attempt outcome is classified retryable by the loop body:
a non-`ok` response with status 429 or 408, or any thrown exception. -/
def retryableOutcome : FetchOutcome → Bool
  | FetchOutcome.response status _ => !resOk status && (status == 429 || status == 408)
  | FetchOutcome.exception _ => true

/-- The `while (true)` body of `postDonateTo`, with the attempt counter and
current wait made explicit.  `remote k` is the outcome of the `k`-th fetch
(1-based).  Returns the resolved `{status, data}`, the list of sleeps
performed (in seconds, in order), and the number of the final attempt.
The loop runs again only while `attempt <= maxRetries`, which bounds the
recursion. -/
def donateLoop (remote : Nat → FetchOutcome) (maxRetries : Nat)
    (attempt : Nat) (wait : ℚ) : DonateResult × List ℚ × Nat :=
  match remote attempt with
  | FetchOutcome.response status data =>
    if resOk status then (⟨status, data⟩, [], attempt)
    else if h : (status = 429 ∨ status = 408) ∧ attempt ≤ maxRetries then
      let r2 := donateLoop remote maxRetries (attempt + 1) (wait * 2)
      (r2.1, wait :: r2.2.1, r2.2.2)
    else (⟨status, data⟩, [], attempt)
  | FetchOutcome.exception msg =>
    if h : attempt ≤ maxRetries then
      let r2 := donateLoop remote maxRetries (attempt + 1) (wait * 2)
      (r2.1, wait :: r2.2.1, r2.2.2)
    else (⟨0, RespData.errorMsg (orNetworkError msg)⟩, [], attempt)
  termination_by maxRetries + 1 - attempt
  decreasing_by
  · omega
  · omega

/-- `postDonateTo(url, maxRetries, backoffSec)`: attempt counter starts
before 1, the initial wait is `Math.max(1, backoffSec)`. -/
def postDonateTo (remote : Nat → FetchOutcome) (maxRetries : Nat)
    (backoffSec : ℚ) : DonateResult × List ℚ × Nat :=
  donateLoop remote maxRetries 1 (max 1 backoffSec)

/-! ## Data model -/

/-- One derived wallet address, as produced by `loadWallet`. -/
structure DerivedAddress where
  index : Nat
  bech32 : String
  publicKeyHex : String
  registered : Bool
  deriving Repr, DecidableEq

/-- One ledger receipt; only the fields the orchestrator reads.  A `null`
entry or a receipt with a falsy (empty) `address` is skipped by the
counting loop, which the empty string models. -/
structure Receipt where
  address : String
  isDevFee : Bool
  deriving Repr, DecidableEq

/-- `m.get(k)` of a JS `Map`, with default `d` (the `|| 0` read pattern). -/
def mapGetD (m : List (String × Nat)) (k : String) (d : Nat) : Nat :=
  match m.find? (fun p => p.1 == k) with
  | some p => p.2
  | none => d

/-- `m.set(k, v)` of a JS `Map`: overwrite the existing binding or append a
new one. -/
def mapSet (m : List (String × Nat)) (k : String) (v : Nat) : List (String × Nat) :=
  if m.any (fun p => p.1 == k) then
    m.map (fun p => if p.1 == k then (k, v) else p)
  else m ++ [(k, v)]

/-- The `userSolutionsPerAddress` map built from the receipts: count, per
address, the receipts with a truthy `address` and `isDevFee` false. -/
def buildUserSolutions (receipts : List Receipt) : List (String × Nat) :=
  receipts.foldl
    (fun m r =>
      if r.address != "" && !r.isDevFee then
        mapSet m r.address (mapGetD m r.address 0 + 1)
      else m)
    []

/-- `userSolutionsPerAddress.get(addr) || 0`. -/
def totalUserSolutions (receipts : List Receipt) (addr : String) : Nat :=
  mapGetD (buildUserSolutions receipts) addr 0

/-- The donor-index determination shared verbatim by both routes: a
non-empty `addressIndexes` array is converted with `Number` and filtered to
non-negative integers (entries are modelled as integers, so the
`Number.isInteger` test is the `0 ≤ n` filter); otherwise every derived
index is used. -/
def requestedIndexes (addressIndexes : Option (List ℤ))
    (addresses : List DerivedAddress) : List ℤ :=
  match addressIndexes with
  | some is =>
    if is.length > 0 then is.filter (fun n => decide (0 ≤ n))
    else addresses.map (fun a => (a.index : ℤ))
  | none => addresses.map (fun a => (a.index : ℤ))

/-- Donor filtering of the consolidate route: resolve each requested index
against the derived set (unresolved indexes drop out of the `filterMap`),
drop the recipient address, and keep only addresses with a positive user
solution count. -/
def eligibleDonors (addressIndexes : Option (List ℤ))
    (addresses : List DerivedAddress) (usm : List (String × Nat))
    (recipientAddress : String) : List DerivedAddress :=
  (((requestedIndexes addressIndexes addresses).filterMap
        (fun i => addresses.find? (fun a => (a.index : ℤ) == i))).filter
      (fun a => a.bech32 != recipientAddress)).filter
    (fun a => decide (0 < mapGetD usm a.bech32 0))

/-- `Number.isInteger(body.maxRetries) ? Math.max(0, body.maxRetries) : 3`. -/
def effMaxRetries : Option JSNum → Nat
  | some (JSNum.finite q) => if q.den = 1 then (max 0 q.num).toNat else 3
  | _ => 3

/-- `Number.isFinite(body.initialBackoffSeconds) ?
Math.max(1, body.initialBackoffSeconds) : 20`. -/
def effInitialBackoff : Option JSNum → ℚ
  | some (JSNum.finite q) => max 1 q
  | _ => 20

/-- `String.prototype.startsWith`, computed on the character list so that
concrete instances reduce in the kernel. -/
def strStartsWith (s p : String) : Bool := p.data.isPrefixOf s.data

/-- `String.prototype.trim`, computed on the character list (ASCII
whitespace; the JS method also strips some exotic Unicode spaces, which
none of the strings here contain). -/
def strTrim (s : String) : String :=
  String.mk (((s.data.dropWhile Char.isWhitespace).reverse.dropWhile
    Char.isWhitespace).reverse)

/-- Address validity check of the consolidate route. -/
def isValidAddr (addr : String) : Bool :=
  (strStartsWith addr "addr1" || strStartsWith addr "tnight1") &&
    decide (20 < addr.length)

def API_BASE : String := "https://scavenger.prod.gd.midnighttge.io"

/-! ## encodeURIComponent -/

/-- UTF-8 bytes of a character (as naturals). -/
def utf8Bytes (c : Char) : List Nat :=
  let n := c.toNat
  if n < 0x80 then [n]
  else if n < 0x800 then [0xC0 + n / 0x40, 0x80 + n % 0x40]
  else if n < 0x10000 then
    [0xE0 + n / 0x1000, 0x80 + n / 0x40 % 0x40, 0x80 + n % 0x40]
  else
    [0xF0 + n / 0x40000, 0x80 + n / 0x1000 % 0x40, 0x80 + n / 0x40 % 0x40,
     0x80 + n % 0x40]

/-- Uppercase hexadecimal digit for `n < 16`. -/
def hexDigitUpper (n : Nat) : Char :=
  if n < 10 then Char.ofNat (48 + n) else Char.ofNat (55 + n)

/-- `%XY` percent-escape of one byte, uppercase hex. -/
def percentEncodeByte (b : Nat) : String :=
  String.mk ['%', hexDigitUpper (b / 16), hexDigitUpper (b % 16)]

/-- The characters `encodeURIComponent` leaves unescaped:
`A–Z a–z 0–9 - _ . ! ~ * ' ( )`. -/
def isUnreservedURIChar (c : Char) : Bool :=
  c.isAlpha || c.isDigit ||
    [Char.ofNat 45, Char.ofNat 95, Char.ofNat 46, Char.ofNat 33, Char.ofNat 126,
     Char.ofNat 42, Char.ofNat 39, Char.ofNat 40, Char.ofNat 41].contains c

/-- JavaScript `encodeURIComponent`: unreserved characters pass through,
all others are percent-escaped as their UTF-8 bytes in uppercase hex. -/
def encodeURIComponent (s : String) : String :=
  String.join (s.data.map (fun c =>
    if isUnreservedURIChar c then String.singleton c
    else String.join ((utf8Bytes c).map percentEncodeByte)))

/-! ## Consolidate route -/

/-- `err?.message || 'Internal error'` of the outer catch blocks. -/
def orInternalError (msg : String) : String :=
  if msg = "" then "Internal error" else msg

/-- `err?.message || 'Signing failed'` of the per-donor catch. -/
def orSigningFailed (msg : String) : String :=
  if msg = "" then "Signing failed" else msg

/-- An observable external action of a request: a `signMessage` invocation
or one `fetch` of the retry loop.  Backoff sleeps are returned by
`postDonateTo` as its wait list. -/
inductive TraceEvent where
  | signCall (index : ℤ) (message : String)
  | fetchCall (url : String) (attempt : Nat)
  deriving Repr, DecidableEq

def TraceEvent.isFetchCall : TraceEvent → Bool
  | TraceEvent.fetchCall _ _ => true
  | _ => false

/-- The body of a consolidate request.  `dryRun` is the result of the
`body.dryRun === true` test; the retry fields are the raw JS values. -/
structure ConsolidateRequest where
  password : String
  recipientAddress : String
  addressIndexes : Option (List ℤ)
  dryRun : Bool
  maxRetries : Option JSNum
  initialBackoffSeconds : Option JSNum

/-- One per-donor result entry of the consolidate response. -/
structure ResultEntry where
  index : Nat
  donor : String
  totalUserSolutions : Nat
  signed : Bool
  signature : Option String
  curl : Option String
  status : Option Nat
  response : Option RespData
  deriving Repr, DecidableEq

/-- The consolidate response: a `{success: false, error}` with its HTTP
status, or the `{success: true, ...}` payload. -/
inductive ConsolidateResponse where
  | failure (error : String) (httpStatus : Nat)
  | success (dryRun : Bool) (message : String) (recipientAddress : String)
      (results : List ResultEntry)
  deriving Repr, DecidableEq

def ConsolidateResponse.isSuccess : ConsolidateResponse → Bool
  | ConsolidateResponse.success _ _ _ _ => true
  | _ => false

/-- Results list of a consolidate response (empty for failures). -/
def ConsolidateResponse.results : ConsolidateResponse → List ResultEntry
  | ConsolidateResponse.success _ _ _ rs => rs
  | _ => []

def mkDonateUrl (recipientAddress donorBech32 encodedSig : String) : String :=
  API_BASE ++ "/donate_to/" ++ recipientAddress ++ "/" ++ donorBech32 ++ "/" ++ encodedSig

def mkCurl (url : String) : String :=
  "curl -L -X POST \"" ++ url ++ "\" -d \"\x7b\x7d\""

/-- The per-donor `try`-block of the consolidate route: sign, build the
curl command, and unless this is a dry run submit through `postDonateTo`.
A signing exception is contained to this donor's entry. -/
def processDonor (sign : ℤ → String → Except String String)
    (remote : String → Nat → FetchOutcome) (usm : List (String × Nat))
    (message recipientAddress : String) (dryRun : Bool) (maxRetries : Nat)
    (initialBackoffSeconds : ℚ) (donor : DerivedAddress) :
    ResultEntry × List TraceEvent :=
  match sign (donor.index : ℤ) message with
  | Except.ok signature =>
    let encodedSig := encodeURIComponent signature
    let url := mkDonateUrl recipientAddress donor.bech32 encodedSig
    let curl := mkCurl url
    if dryRun then
      ({ index := donor.index, donor := donor.bech32,
         totalUserSolutions := mapGetD usm donor.bech32 0,
         signed := true, signature := some signature, curl := some curl,
         status := none, response := none },
       [TraceEvent.signCall (donor.index : ℤ) message])
    else
      let res := postDonateTo (remote url) maxRetries initialBackoffSeconds
      ({ index := donor.index, donor := donor.bech32,
         totalUserSolutions := mapGetD usm donor.bech32 0,
         signed := true, signature := some signature, curl := some curl,
         status := some res.1.status, response := some res.1.data },
       TraceEvent.signCall (donor.index : ℤ) message ::
         (List.range res.2.2).map (fun k => TraceEvent.fetchCall url (k + 1)))
  | Except.error msg =>
    ({ index := donor.index, donor := donor.bech32,
       totalUserSolutions := mapGetD usm donor.bech32 0,
       signed := false, signature := none, curl := none,
       status := some 0, response := some (RespData.errorMsg (orSigningFailed msg)) },
     [TraceEvent.signCall (donor.index : ℤ) message])

/-- `POST /api/wallet/consolidate`.  `loadWallet` is the outcome of
unlocking the wallet with the request's password, `sign` the
`signMessage` capability (an `Except.error` is a thrown exception), and
`remote url k` the outcome of the `k`-th fetch of `url`. -/
def consolidatePOST (req : ConsolidateRequest)
    (loadWallet : Except String (List DerivedAddress))
    (receipts : List Receipt) (sign : ℤ → String → Except String String)
    (remote : String → Nat → FetchOutcome) :
    ConsolidateResponse × List TraceEvent :=
  let maxRetries := effMaxRetries req.maxRetries
  let initialBackoffSeconds := effInitialBackoff req.initialBackoffSeconds
  if req.password = "" then
    (ConsolidateResponse.failure "Missing password" 400, [])
  else if !isValidAddr req.recipientAddress then
    (ConsolidateResponse.failure "Invalid recipientAddress" 400, [])
  else
    match loadWallet with
    | Except.error msg =>
      (ConsolidateResponse.failure (orInternalError msg) 500, [])
    | Except.ok addresses =>
      let usm := buildUserSolutions receipts
      let donors := eligibleDonors req.addressIndexes addresses usm req.recipientAddress
      if donors.length = 0 then
        (ConsolidateResponse.failure "No donor addresses with user solutions" 400, [])
      else
        let message := "Assign accumulated Scavenger rights to: " ++ req.recipientAddress
        let processed := donors.map
          (processDonor sign remote usm message req.recipientAddress req.dryRun
            maxRetries initialBackoffSeconds)
        (ConsolidateResponse.success req.dryRun message req.recipientAddress
           (processed.map Prod.fst),
         (processed.map Prod.snd).flatten)

/-! ## Consolidation-proofs route -/

/-- The body of a consolidation-proofs request.  `includePublicKey` is the
result of the `body?.includePublicKey !== false` test (default `true`). -/
structure ProofsRequest where
  password : String
  challenge : Option String
  targetAddress : Option String
  addressIndexes : Option (List ℤ)
  includePublicKey : Bool

/-- One proof entry of the proofs response. -/
structure ProofEntry where
  index : ℤ
  address : String
  signature : String
  totalUserSolutions : Nat
  publicKeyHex : Option String
  deriving Repr, DecidableEq

/-- The proofs response: a `{success: false, error}` with its HTTP status,
or the `{success: true, challenge, count, proofs}` payload. -/
inductive ProofsResponse where
  | failure (error : String) (httpStatus : Nat)
  | success (challenge : String) (count : Nat) (proofs : List ProofEntry)
  deriving Repr, DecidableEq

def ProofsResponse.isSuccess : ProofsResponse → Bool
  | ProofsResponse.success _ _ _ => true
  | _ => false

/-- The `targetAddress` fallback of the challenge resolution: a target
whose trim is non-empty synthesizes the default challenge around the
resolution-time ISO timestamp `now`. -/
def resolveTargetChallenge (targetAddress : Option String) (now : String) :
    Option String :=
  match targetAddress with
  | some t =>
    if (strTrim t).length > 0 then
      some ("scavenger-consolidate|target=" ++ strTrim t ++ "|ts=" ++ now)
    else none
  | none => none

/-- Challenge resolution of the proofs route: a caller challenge whose trim
is non-empty wins (trimmed), else the `targetAddress` fallback. -/
def resolveChallenge (userChallenge targetAddress : Option String)
    (now : String) : Option String :=
  match userChallenge with
  | some c =>
    if (strTrim c).length > 0 then some (strTrim c)
    else resolveTargetChallenge targetAddress now
  | none => resolveTargetChallenge targetAddress now

/-- The proof-production loop of the proofs route.  Signing has no
per-entry catch here: a thrown `signMessage` error aborts the loop and
propagates to the outer catch.  The trace records the signing calls made
up to and including the failing one.  The `none` branch of `find?` models
the `TypeError` JS would throw reading `.bech32` of `undefined`; it is
unreachable after index validation. -/
def buildProofs (addresses : List DerivedAddress) (usm : List (String × Nat))
    (sign : ℤ → String → Except String String) (challenge : String)
    (includePublicKey : Bool) :
    List ℤ → Except String (List ProofEntry) × List TraceEvent
  | [] => (Except.ok [], [])
  | i :: rest =>
    match addresses.find? (fun a => (a.index : ℤ) == i) with
    | none => (Except.error "Cannot read properties of undefined", [])
    | some addr =>
      match sign i challenge with
      | Except.error msg => (Except.error msg, [TraceEvent.signCall i challenge])
      | Except.ok signature =>
        let entry : ProofEntry :=
          { index := i, address := addr.bech32, signature := signature,
            totalUserSolutions := mapGetD usm addr.bech32 0,
            publicKeyHex := if includePublicKey then some addr.publicKeyHex else none }
        let r2 := buildProofs addresses usm sign challenge includePublicKey rest
        (Except.map (fun ps => entry :: ps) r2.1,
         TraceEvent.signCall i challenge :: r2.2)

/-- `POST /api/wallet/consolidation-proofs`.  `now` is the ISO timestamp
taken at challenge-resolution time. -/
def proofsPOST (req : ProofsRequest) (now : String)
    (loadWallet : Except String (List DerivedAddress))
    (receipts : List Receipt) (sign : ℤ → String → Except String String) :
    ProofsResponse × List TraceEvent :=
  if req.password = "" then
    (ProofsResponse.failure "Missing or invalid password" 400, [])
  else
    match resolveChallenge req.challenge req.targetAddress now with
    | none =>
      (ProofsResponse.failure "Provide challenge or targetAddress to build one" 400, [])
    | some challenge =>
      match loadWallet with
      | Except.error msg => (ProofsResponse.failure (orInternalError msg) 500, [])
      | Except.ok addresses =>
        let indexes := requestedIndexes req.addressIndexes addresses
        let invalid := indexes.filter
          (fun i => !(addresses.any (fun a => (a.index : ℤ) == i)))
        if invalid.length > 0 then
          (ProofsResponse.failure
            ("Invalid address indexes: " ++
              String.intercalate ", " (invalid.map (fun i => toString i))) 400, [])
        else
          let usm := buildUserSolutions receipts
          let indexes2 := indexes.filter (fun i =>
            match addresses.find? (fun a => (a.index : ℤ) == i) with
            | some addr => decide (0 < mapGetD usm addr.bech32 0)
            | none => false)
          if indexes2.length = 0 then
            (ProofsResponse.failure
              "No eligible addresses to sign (no addresses with user solutions)" 400, [])
          else
            match buildProofs addresses usm sign challenge req.includePublicKey indexes2 with
            | (Except.error msg, trace) =>
              (ProofsResponse.failure (orInternalError msg) 500, trace)
            | (Except.ok proofs, trace) =>
              (ProofsResponse.success challenge proofs.length proofs, trace)

/-- Full characterisation of one `donateLoop` run starting at `attempt`:
the final attempt number is between `attempt` and `maxRetries + 1`, every
outcome strictly before the final attempt was retryable, a retryable final
outcome means the retry budget was exhausted, the returned value is the
final attempt's outcome, and the recorded waits double from `wait`, one
wait per non-final attempt. -/
def LoopSpec (remote : Nat → FetchOutcome) (maxRetries attempt : Nat)
    (wait : ℚ) (out : DonateResult × List ℚ × Nat) : Prop :=
  attempt ≤ out.2.2 ∧ out.2.2 ≤ maxRetries + 1 ∧
  (∀ k, attempt ≤ k → k < out.2.2 → retryableOutcome (remote k) = true) ∧
  (retryableOutcome (remote out.2.2) = true → out.2.2 = maxRetries + 1) ∧
  out.1 = finalResult (remote out.2.2) ∧
  out.2.1 = (List.range (out.2.2 - attempt)).map (fun i => wait * 2 ^ i)

/-! ## Specification-side definition and example fixtures -/

/-- The specification's claimed value of `totalUserSolutions(addr)`,
written from the spec's words for comparison with the implementation:
the count of receipts whose `address` equals `addr` and whose `isDevFee`
is false. -/
def claimedUserSolutions (receipts : List Receipt) (addr : String) : Nat :=
  (receipts.filter (fun r => r.address == addr && !r.isDevFee)).length

/-- A mock remote that answers 429 on the first two attempts and 200 after. -/
def mockRemote429 : Nat → FetchOutcome := fun n =>
  if n ≤ 2 then FetchOutcome.response 429 (RespData.raw "")
  else FetchOutcome.response 200 (RespData.json "ok")

/-- Example derived-address set: index 0 is the donor, index 1 the
recipient. -/
def exAddrs : List DerivedAddress :=
  [⟨0, "addr1donordonordonordonor00", "pk0", true⟩,
   ⟨1, "addr1recipientrecipient11", "pk1", true⟩]

/-- Example ledger: one user receipt for the donor address. -/
def exReceipts : List Receipt := [⟨"addr1donordonordonordonor00", false⟩]

/-- Example signer that always succeeds with a bracketed signature. -/
def exSignOk : ℤ → String → Except String String :=
  fun i _ => Except.ok ("SIG[" ++ toString i ++ "]")

/-- Example signer that always throws. -/
def exSignFail : ℤ → String → Except String String :=
  fun _ _ => Except.error "boom"

/-- Example remote service; reaching it in a dry-run scenario would be the
bug under test, hence the exception payload. -/
def exRemote : String → Nat → FetchOutcome :=
  fun _ _ => FetchOutcome.exception "unreachable"

/-- Example consolidate request: dry run, indexes 0 (known) and 5
(unknown). -/
def exReq : ConsolidateRequest :=
  ⟨"pw", "addr1recipientrecipient11", some [0, 5], true, none, none⟩

/-- Example consolidate request selecting only the donor index. -/
def exReqDonorOnly : ConsolidateRequest :=
  ⟨"pw", "addr1recipientrecipient11", some [0], true, none, none⟩

/-! ## Retry-loop lemmas -/

theorem donateLoop_eq_ok {remote : Nat → FetchOutcome} {maxRetries attempt : Nat}
    {wait : ℚ} {status : Nat} {data : RespData}
    (hrem : remote attempt = FetchOutcome.response status data)
    (hok : resOk status = true) :
    donateLoop remote maxRetries attempt wait = (⟨status, data⟩, [], attempt) := by
  rw [donateLoop, hrem]
  simp [hok]

theorem donateLoop_eq_retry_response {remote : Nat → FetchOutcome}
    {maxRetries attempt : Nat} {wait : ℚ} {status : Nat} {data : RespData}
    (hrem : remote attempt = FetchOutcome.response status data)
    (hok : resOk status = false) (h29 : status = 429 ∨ status = 408)
    (hle : attempt ≤ maxRetries) :
    donateLoop remote maxRetries attempt wait =
      ((donateLoop remote maxRetries (attempt + 1) (wait * 2)).1,
       wait :: (donateLoop remote maxRetries (attempt + 1) (wait * 2)).2.1,
       (donateLoop remote maxRetries (attempt + 1) (wait * 2)).2.2) := by
  rw [donateLoop, hrem]
  simp [hok, h29, hle]

theorem donateLoop_eq_final_response {remote : Nat → FetchOutcome}
    {maxRetries attempt : Nat} {wait : ℚ} {status : Nat} {data : RespData}
    (hrem : remote attempt = FetchOutcome.response status data)
    (hok : resOk status = false)
    (hfin : ¬((status = 429 ∨ status = 408) ∧ attempt ≤ maxRetries)) :
    donateLoop remote maxRetries attempt wait = (⟨status, data⟩, [], attempt) := by
  rw [donateLoop, hrem]
  simp [hok, hfin]

theorem donateLoop_eq_retry_exc {remote : Nat → FetchOutcome}
    {maxRetries attempt : Nat} {wait : ℚ} {msg : String}
    (hrem : remote attempt = FetchOutcome.exception msg)
    (hle : attempt ≤ maxRetries) :
    donateLoop remote maxRetries attempt wait =
      ((donateLoop remote maxRetries (attempt + 1) (wait * 2)).1,
       wait :: (donateLoop remote maxRetries (attempt + 1) (wait * 2)).2.1,
       (donateLoop remote maxRetries (attempt + 1) (wait * 2)).2.2) := by
  rw [donateLoop, hrem]
  simp [hle]

theorem donateLoop_eq_final_exc {remote : Nat → FetchOutcome}
    {maxRetries attempt : Nat} {wait : ℚ} {msg : String}
    (hrem : remote attempt = FetchOutcome.exception msg)
    (hgt : ¬ attempt ≤ maxRetries) :
    donateLoop remote maxRetries attempt wait =
      (⟨0, RespData.errorMsg (orNetworkError msg)⟩, [], attempt) := by
  rw [donateLoop, hrem]
  simp [hgt]

theorem waits_cons (wait : ℚ) (m : Nat) :
    wait :: (List.range m).map (fun i => wait * 2 * 2 ^ i) =
      (List.range (m + 1)).map (fun i => wait * 2 ^ i) := by
  rw [List.range_succ_eq_map, List.map_cons, List.map_map]
  simp only [pow_zero, mul_one]
  congr 1
  apply List.map_congr_left
  intro i _
  simp only [Function.comp_apply, pow_succ]
  ring

theorem donateLoop_spec (remote : Nat → FetchOutcome) (maxRetries : Nat) :
    ∀ (fuel attempt : Nat) (wait : ℚ), attempt + fuel = maxRetries + 1 →
    LoopSpec remote maxRetries attempt wait
      (donateLoop remote maxRetries attempt wait) := by
  intro fuel
  induction fuel with
  | zero =>
    intro attempt wait hat
    have hgt : ¬ attempt ≤ maxRetries := by omega
    rcases hrem : remote attempt with ⟨status, data⟩ | msg
    · by_cases hok : resOk status
      · rw [donateLoop_eq_ok hrem hok]
        unfold LoopSpec
        dsimp only
        exact ⟨le_refl _, by omega, fun k hk1 hk2 => absurd hk2 (by omega),
          fun _ => by omega, by rw [hrem]; rfl, by simp⟩
      · have hok2 : resOk status = false := by
          simpa using hok
        rw [donateLoop_eq_final_response hrem hok2 (by tauto)]
        unfold LoopSpec
        dsimp only
        exact ⟨le_refl _, by omega, fun k hk1 hk2 => absurd hk2 (by omega),
          fun _ => by omega, by rw [hrem]; rfl, by simp⟩
    · rw [donateLoop_eq_final_exc hrem hgt]
      unfold LoopSpec
      dsimp only
      exact ⟨le_refl _, by omega, fun k hk1 hk2 => absurd hk2 (by omega),
        fun _ => by omega, by rw [hrem]; rfl, by simp⟩
  | succ fuel ih =>
    intro attempt wait hat
    rcases hrem : remote attempt with ⟨status, data⟩ | msg
    · by_cases hok : resOk status
      · rw [donateLoop_eq_ok hrem hok]
        unfold LoopSpec
        dsimp only
        refine ⟨le_refl _, by omega, fun k hk1 hk2 => absurd hk2 (by omega),
          ?_, by rw [hrem]; rfl, by simp⟩
        intro habs
        rw [hrem] at habs
        simp [retryableOutcome, hok] at habs
      · have hok2 : resOk status = false := by
          simpa using hok
        by_cases h29 : status = 429 ∨ status = 408
        · have hle : attempt ≤ maxRetries := by omega
          rw [donateLoop_eq_retry_response hrem hok2 h29 hle]
          obtain ⟨h1, h2, h3, h4, h5, h6⟩ := ih (attempt + 1) (wait * 2) (by omega)
          unfold LoopSpec
          dsimp only
          refine ⟨by omega, h2, ?_, h4, h5, ?_⟩
          · intro k hk1 hk2
            rcases Nat.eq_or_lt_of_le hk1 with heq | hlt
            · subst heq
              simp [retryableOutcome, hrem, hok2]
              tauto
            · exact h3 k hlt hk2
          · rw [h6]
            have hm : (donateLoop remote maxRetries (attempt + 1) (wait * 2)).2.2
                - attempt
                  = ((donateLoop remote maxRetries (attempt + 1) (wait * 2)).2.2
                      - (attempt + 1)) + 1 := by omega
            rw [hm, ← waits_cons]
        · rw [donateLoop_eq_final_response hrem hok2 (by tauto)]
          unfold LoopSpec
          dsimp only
          refine ⟨le_refl _, by omega, fun k hk1 hk2 => absurd hk2 (by omega),
            ?_, by rw [hrem]; rfl, by simp⟩
          intro habs
          rw [hrem] at habs
          simp only [retryableOutcome, hok2, Bool.not_false, Bool.true_and,
            Bool.or_eq_true, beq_iff_eq] at habs
          exact absurd habs h29
    · by_cases hle : attempt ≤ maxRetries
      · rw [donateLoop_eq_retry_exc hrem hle]
        obtain ⟨h1, h2, h3, h4, h5, h6⟩ := ih (attempt + 1) (wait * 2) (by omega)
        unfold LoopSpec
        dsimp only
        refine ⟨by omega, h2, ?_, h4, h5, ?_⟩
        · intro k hk1 hk2
          rcases Nat.eq_or_lt_of_le hk1 with heq | hlt
          · subst heq
            simp [retryableOutcome, hrem]
          · exact h3 k hlt hk2
        · rw [h6]
          have hm : (donateLoop remote maxRetries (attempt + 1) (wait * 2)).2.2
              - attempt
                = ((donateLoop remote maxRetries (attempt + 1) (wait * 2)).2.2
                    - (attempt + 1)) + 1 := by omega
          rw [hm, ← waits_cons]
      · rw [donateLoop_eq_final_exc hrem hle]
        unfold LoopSpec
        dsimp only
        exact ⟨le_refl _, by omega, fun k hk1 hk2 => absurd hk2 (by omega),
          fun _ => by omega, by rw [hrem]; rfl, by simp⟩

/-- `LoopSpec` for a full `postDonateTo` run. -/
theorem postDonateTo_spec (remote : Nat → FetchOutcome) (maxRetries : Nat)
    (backoffSec : ℚ) :
    LoopSpec remote maxRetries 1 (max 1 backoffSec)
      (postDonateTo remote maxRetries backoffSec) :=
  donateLoop_spec remote maxRetries maxRetries 1 (max 1 backoffSec) (by omega)

/-! ## User-solution map lemmas -/

theorem mapGetD_cons (q : String × Nat) (m : List (String × Nat))
    (addr : String) (d : Nat) :
    mapGetD (q :: m) addr d =
      if (q.1 == addr) = true then q.2 else mapGetD m addr d := by
  unfold mapGetD
  simp only [List.find?]
  cases h : (q.1 == addr) <;> simp [h]

theorem mapGetD_map_update_ne (m : List (String × Nat)) (k : String) (v : Nat)
    (addr : String) (h : addr ≠ k) :
    mapGetD (m.map (fun q => if q.1 == k then (k, v) else q)) addr 0 =
      mapGetD m addr 0 := by
  induction m with
  | nil => rfl
  | cons q m ih =>
    rw [List.map_cons]
    by_cases hq : (q.1 == k) = true
    · rw [if_pos hq, mapGetD_cons, mapGetD_cons]
      have h1 : ¬ (((k, v) : String × Nat).1 == addr) = true := by
        simp only [beq_iff_eq]
        exact fun hk => h hk.symm
      have h2 : ¬ (q.1 == addr) = true := by
        simp only [beq_iff_eq]
        intro hqa
        exact h ((beq_iff_eq.mp hq) ▸ hqa).symm
      rw [if_neg h1, if_neg h2, ih]
    · rw [if_neg hq, mapGetD_cons, mapGetD_cons]
      by_cases hqa : (q.1 == addr) = true
      · rw [if_pos hqa, if_pos hqa]
      · rw [if_neg hqa, if_neg hqa, ih]

theorem mapGetD_map_update_same (m : List (String × Nat)) (k : String) (v : Nat)
    (h : m.any (fun q => q.1 == k) = true) :
    mapGetD (m.map (fun q => if q.1 == k then (k, v) else q)) k 0 = v := by
  induction m with
  | nil => simp at h
  | cons q m ih =>
    rw [List.map_cons]
    by_cases hq : (q.1 == k) = true
    · rw [if_pos hq, mapGetD_cons, if_pos (by simp)]
    · rw [if_neg hq, mapGetD_cons, if_neg hq]
      simp only [List.any_cons, hq, Bool.false_or] at h
      exact ih h

theorem mapGetD_append_single (m : List (String × Nat)) (k : String) (v : Nat)
    (addr : String) (hnone : m.any (fun q => q.1 == k) = false) :
    mapGetD (m ++ [(k, v)]) addr 0 =
      if addr = k then v else mapGetD m addr 0 := by
  induction m with
  | nil =>
    rw [List.nil_append, mapGetD_cons]
    by_cases h : addr = k
    · rw [if_pos (by simp [beq_iff_eq, h]), if_pos h]
    · rw [if_neg (by simp only [beq_iff_eq]; exact fun hk => h hk.symm), if_neg h]
  | cons q m ih =>
    simp only [List.any_cons, Bool.or_eq_false_iff] at hnone
    rw [List.cons_append, mapGetD_cons, mapGetD_cons]
    by_cases hqa : (q.1 == addr) = true
    · have hak : addr ≠ k := by
        intro hk
        have : (q.1 == k) = true := by
          rw [beq_iff_eq]
          exact (beq_iff_eq.mp hqa).trans hk
        rw [hnone.1] at this
        exact Bool.false_ne_true this
      rw [if_pos hqa, if_pos hqa, if_neg hak]
    · rw [if_neg hqa, if_neg hqa, ih hnone.2]

/-- The JS `Map.set` read-back law: setting `k` to `v` makes reading `k`
give `v` and leaves every other key unchanged. -/
theorem mapGetD_mapSet (m : List (String × Nat)) (k : String) (v : Nat)
    (addr : String) :
    mapGetD (mapSet m k v) addr 0 = if addr = k then v else mapGetD m addr 0 := by
  unfold mapSet
  by_cases hany : m.any (fun q => q.1 == k) = true
  · rw [if_pos hany]
    by_cases h : addr = k
    · subst h
      rw [mapGetD_map_update_same m addr v hany, if_pos rfl]
    · rw [mapGetD_map_update_ne m k v addr h, if_neg h]
  · rw [if_neg hany, mapGetD_append_single m k v addr (Bool.eq_false_iff.mpr hany)]

/-- Invariant of the receipt-counting fold: for a non-empty `addr`, the
count read back after folding a receipt list over any starting map is the
starting value plus the number of matching non-dev-fee receipts. -/
theorem buildUserSolutions_go (addr : String) (h : addr ≠ "") :
    ∀ (rs : List Receipt) (m : List (String × Nat)),
    mapGetD (rs.foldl (fun m r =>
        if r.address != "" && !r.isDevFee then
          mapSet m r.address (mapGetD m r.address 0 + 1)
        else m) m) addr 0 =
      mapGetD m addr 0 +
        (rs.filter (fun r => r.address == addr && !r.isDevFee)).length := by
  intro rs
  induction rs with
  | nil => intro m; simp
  | cons r rs ih =>
    intro m
    rw [List.foldl_cons, List.filter_cons]
    by_cases hdev : r.isDevFee
    · have hstep : (r.address != "" && !r.isDevFee) = false := by
        simp [hdev]
      have hpred : (r.address == addr && !r.isDevFee) = false := by
        simp [hdev]
      rw [hstep, if_neg (by simp), hpred, if_neg (by simp)]
      exact ih m
    · have hdev2 : r.isDevFee = false := Bool.eq_false_iff.mpr hdev
      by_cases hemp : r.address = ""
      · have hstep : (r.address != "" && !r.isDevFee) = false := by
          simp [hemp]
        have hpred : (r.address == addr && !r.isDevFee) = false := by
          simp [beq_iff_eq, hemp]
          exact fun ha => absurd ha.symm h
        rw [hstep, if_neg (by simp), hpred, if_neg (by simp)]
        exact ih m
      · have hstep : (r.address != "" && !r.isDevFee) = true := by
          simp [hdev2, hemp]
        rw [hstep, if_pos rfl]
        rw [ih (mapSet m r.address (mapGetD m r.address 0 + 1))]
        rw [mapGetD_mapSet]
        by_cases haddr : r.address = addr
        · have hpred : (r.address == addr && !r.isDevFee) = true := by
            simp [beq_iff_eq, haddr, hdev2]
          rw [hpred, if_pos rfl, if_pos haddr.symm, List.length_cons, haddr]
          omega
        · have hpred : (r.address == addr && !r.isDevFee) = false := by
            simp [beq_iff_eq, haddr]
          rw [hpred, if_neg (fun hx : addr = r.address => haddr hx.symm),
            if_neg (by simp)]

/-- For every non-empty address, the implementation's per-address count
agrees with the specification's filter-and-count. -/
theorem totalUserSolutions_eq_claimed (rs : List Receipt) (addr : String)
    (h : addr ≠ "") :
    totalUserSolutions rs addr = claimedUserSolutions rs addr := by
  unfold totalUserSolutions buildUserSolutions claimedUserSolutions
  rw [buildUserSolutions_go addr h rs []]
  simp [mapGetD]

/-! ## Per-donor and donor-filter lemmas -/

theorem processDonor_fst_fields (sign : ℤ → String → Except String String)
    (remote : String → Nat → FetchOutcome) (usm : List (String × Nat))
    (message recipientAddress : String) (dryRun : Bool) (maxRetries : Nat)
    (initialBackoffSeconds : ℚ) (donor : DerivedAddress) :
    ((processDonor sign remote usm message recipientAddress dryRun maxRetries
        initialBackoffSeconds donor).1).index = donor.index ∧
    ((processDonor sign remote usm message recipientAddress dryRun maxRetries
        initialBackoffSeconds donor).1).donor = donor.bech32 ∧
    ((processDonor sign remote usm message recipientAddress dryRun maxRetries
        initialBackoffSeconds donor).1).totalUserSolutions =
      mapGetD usm donor.bech32 0 := by
  unfold processDonor
  cases sign (donor.index : ℤ) message with
  | ok s => by_cases h : dryRun = true <;> simp [h]
  | error m => simp

theorem processDonor_sign_error (sign : ℤ → String → Except String String)
    (remote : String → Nat → FetchOutcome) (usm : List (String × Nat))
    (message recipientAddress : String) (dryRun : Bool) (maxRetries : Nat)
    (initialBackoffSeconds : ℚ) (donor : DerivedAddress) (msg : String)
    (hs : sign (donor.index : ℤ) message = Except.error msg) :
    processDonor sign remote usm message recipientAddress dryRun maxRetries
        initialBackoffSeconds donor =
      ({ index := donor.index, donor := donor.bech32,
         totalUserSolutions := mapGetD usm donor.bech32 0,
         signed := false, signature := none, curl := none,
         status := some 0,
         response := some (RespData.errorMsg (orSigningFailed msg)) },
       [TraceEvent.signCall (donor.index : ℤ) message]) := by
  unfold processDonor
  rw [hs]

theorem processDonor_dryRun (sign : ℤ → String → Except String String)
    (remote : String → Nat → FetchOutcome) (usm : List (String × Nat))
    (message recipientAddress : String) (maxRetries : Nat)
    (initialBackoffSeconds : ℚ) (donor : DerivedAddress) :
    ((processDonor sign remote usm message recipientAddress true maxRetries
        initialBackoffSeconds donor).2 =
      [TraceEvent.signCall (donor.index : ℤ) message]) ∧
    (((processDonor sign remote usm message recipientAddress true maxRetries
        initialBackoffSeconds donor).1).signed = true →
      ∃ s, sign (donor.index : ℤ) message = Except.ok s ∧
        ((processDonor sign remote usm message recipientAddress true maxRetries
            initialBackoffSeconds donor).1).signature = some s ∧
        ((processDonor sign remote usm message recipientAddress true maxRetries
            initialBackoffSeconds donor).1).curl =
          some (mkCurl (mkDonateUrl recipientAddress donor.bech32
            (encodeURIComponent s)))) := by
  unfold processDonor
  cases hs : sign (donor.index : ℤ) message with
  | ok s =>
    refine ⟨by simp, ?_⟩
    intro _
    exact ⟨s, rfl, by simp, by simp⟩
  | error m => simp

theorem eligibleDonors_mem (addressIndexes : Option (List ℤ))
    (addresses : List DerivedAddress) (usm : List (String × Nat))
    (recipientAddress : String) (d : DerivedAddress)
    (hd : d ∈ eligibleDonors addressIndexes addresses usm recipientAddress) :
    d ∈ addresses ∧ d.bech32 ≠ recipientAddress ∧ 0 < mapGetD usm d.bech32 0 := by
  unfold eligibleDonors at hd
  rw [List.mem_filter] at hd
  obtain ⟨hd1, hsol⟩ := hd
  rw [List.mem_filter] at hd1
  obtain ⟨hd2, hne⟩ := hd1
  rw [List.mem_filterMap] at hd2
  obtain ⟨i, _, hfind⟩ := hd2
  refine ⟨List.mem_of_find?_eq_some hfind, ?_, by simpa using hsol⟩
  simpa using hne

/-! ## Consolidate-route shape lemmas -/

theorem consolidatePOST_success_eq (req : ConsolidateRequest)
    (loadWallet : Except String (List DerivedAddress)) (receipts : List Receipt)
    (sign : ℤ → String → Except String String)
    (remote : String → Nat → FetchOutcome) (addresses : List DerivedAddress)
    (hpw : ¬ req.password = "")
    (haddr : isValidAddr req.recipientAddress = true)
    (hlw : loadWallet = Except.ok addresses)
    (hdon : eligibleDonors req.addressIndexes addresses
      (buildUserSolutions receipts) req.recipientAddress ≠ []) :
    consolidatePOST req loadWallet receipts sign remote =
      (ConsolidateResponse.success req.dryRun
        ("Assign accumulated Scavenger rights to: " ++ req.recipientAddress)
        req.recipientAddress
        (((eligibleDonors req.addressIndexes addresses
            (buildUserSolutions receipts) req.recipientAddress).map
          (processDonor sign remote (buildUserSolutions receipts)
            ("Assign accumulated Scavenger rights to: " ++ req.recipientAddress)
            req.recipientAddress req.dryRun (effMaxRetries req.maxRetries)
            (effInitialBackoff req.initialBackoffSeconds))).map Prod.fst),
       (((eligibleDonors req.addressIndexes addresses
            (buildUserSolutions receipts) req.recipientAddress).map
          (processDonor sign remote (buildUserSolutions receipts)
            ("Assign accumulated Scavenger rights to: " ++ req.recipientAddress)
            req.recipientAddress req.dryRun (effMaxRetries req.maxRetries)
            (effInitialBackoff req.initialBackoffSeconds))).map Prod.snd).flatten) := by
  unfold consolidatePOST
  rw [hlw]
  rw [if_neg hpw, if_neg (by rw [haddr]; simp)]
  dsimp only
  rw [if_neg (by rw [List.length_eq_zero]; exact hdon)]

theorem consolidatePOST_noDonors (req : ConsolidateRequest)
    (loadWallet : Except String (List DerivedAddress)) (receipts : List Receipt)
    (sign : ℤ → String → Except String String)
    (remote : String → Nat → FetchOutcome) (addresses : List DerivedAddress)
    (hpw : ¬ req.password = "")
    (haddr : isValidAddr req.recipientAddress = true)
    (hlw : loadWallet = Except.ok addresses)
    (hdon : eligibleDonors req.addressIndexes addresses
      (buildUserSolutions receipts) req.recipientAddress = []) :
    consolidatePOST req loadWallet receipts sign remote =
      (ConsolidateResponse.failure "No donor addresses with user solutions" 400,
       []) := by
  unfold consolidatePOST
  rw [hlw]
  rw [if_neg hpw, if_neg (by rw [haddr]; simp)]
  dsimp only
  rw [if_pos (by rw [List.length_eq_zero]; exact hdon)]

theorem consolidatePOST_results_from_donors (req : ConsolidateRequest)
    (loadWallet : Except String (List DerivedAddress)) (receipts : List Receipt)
    (sign : ℤ → String → Except String String)
    (remote : String → Nat → FetchOutcome) (entry : ResultEntry)
    (he : entry ∈ ((consolidatePOST req loadWallet receipts sign remote).1).results) :
    ∃ addresses, loadWallet = Except.ok addresses ∧
      ∃ d ∈ eligibleDonors req.addressIndexes addresses
          (buildUserSolutions receipts) req.recipientAddress,
        entry = (processDonor sign remote (buildUserSolutions receipts)
          ("Assign accumulated Scavenger rights to: " ++ req.recipientAddress)
          req.recipientAddress req.dryRun (effMaxRetries req.maxRetries)
          (effInitialBackoff req.initialBackoffSeconds) d).1 := by
  by_cases hpw : req.password = ""
  · unfold consolidatePOST at he
    rw [if_pos hpw] at he
    simp [ConsolidateResponse.results] at he
  · by_cases haddr : isValidAddr req.recipientAddress = true
    · cases hlw : loadWallet with
      | error msg =>
        unfold consolidatePOST at he
        rw [hlw, if_neg hpw, if_neg (by rw [haddr]; simp)] at he
        simp [ConsolidateResponse.results] at he
      | ok addresses =>
        by_cases hdon : eligibleDonors req.addressIndexes addresses
            (buildUserSolutions receipts) req.recipientAddress = []
        · rw [consolidatePOST_noDonors req loadWallet receipts sign remote
            addresses hpw haddr hlw hdon] at he
          simp [ConsolidateResponse.results] at he
        · rw [consolidatePOST_success_eq req loadWallet receipts sign remote
            addresses hpw haddr hlw hdon] at he
          simp only [ConsolidateResponse.results, List.map_map, List.mem_map,
            Function.comp_apply] at he
          obtain ⟨d, hd, hentry⟩ := he
          exact ⟨addresses, rfl, d, hd, hentry.symm⟩

    · unfold consolidatePOST at he
      rw [if_neg hpw,
        if_pos (by rw [Bool.eq_false_iff.mpr haddr]; rfl)] at he
      simp [ConsolidateResponse.results] at he

theorem consolidatePOST_trace_from_donors (req : ConsolidateRequest)
    (loadWallet : Except String (List DerivedAddress)) (receipts : List Receipt)
    (sign : ℤ → String → Except String String)
    (remote : String → Nat → FetchOutcome) (e : TraceEvent)
    (he : e ∈ (consolidatePOST req loadWallet receipts sign remote).2) :
    ∃ addresses, loadWallet = Except.ok addresses ∧
      ∃ d ∈ eligibleDonors req.addressIndexes addresses
          (buildUserSolutions receipts) req.recipientAddress,
        e ∈ (processDonor sign remote (buildUserSolutions receipts)
          ("Assign accumulated Scavenger rights to: " ++ req.recipientAddress)
          req.recipientAddress req.dryRun (effMaxRetries req.maxRetries)
          (effInitialBackoff req.initialBackoffSeconds) d).2 := by
  by_cases hpw : req.password = ""
  · unfold consolidatePOST at he
    rw [if_pos hpw] at he
    simp at he
  · by_cases haddr : isValidAddr req.recipientAddress = true
    · cases hlw : loadWallet with
      | error msg =>
        unfold consolidatePOST at he
        rw [hlw, if_neg hpw, if_neg (by rw [haddr]; simp)] at he
        simp at he
      | ok addresses =>
        by_cases hdon : eligibleDonors req.addressIndexes addresses
            (buildUserSolutions receipts) req.recipientAddress = []
        · rw [consolidatePOST_noDonors req loadWallet receipts sign remote
            addresses hpw haddr hlw hdon] at he
          simp at he
        · rw [consolidatePOST_success_eq req loadWallet receipts sign remote
            addresses hpw haddr hlw hdon] at he
          simp only [List.map_map, List.mem_flatten, List.mem_map,
            Function.comp_apply] at he
          obtain ⟨l, ⟨d, hd, hl⟩, hel⟩ := he
          exact ⟨addresses, rfl, d, hd, hl ▸ hel⟩
    · unfold consolidatePOST at he
      rw [if_neg hpw,
        if_pos (by rw [Bool.eq_false_iff.mpr haddr]; rfl)] at he
      simp at he

/-! ## Challenge-resolution lemmas -/

theorem strLength_pos (s : String) : 0 < s.length ↔ s ≠ "" := by
  constructor
  · intro h hs
    subst hs
    simp at h
  · intro h
    cases s with
    | mk data =>
      cases data with
      | nil => exact absurd rfl h
      | cons c cs => simp [String.length]

theorem resolveChallenge_user (c : String) (t : Option String) (now : String)
    (h : strTrim c ≠ "") :
    resolveChallenge (some c) t now = some (strTrim c) := by
  unfold resolveChallenge
  dsimp only
  rw [if_pos ((strLength_pos _).mpr h)]

theorem resolveChallenge_user_empty (c : String) (t : Option String)
    (now : String) (h : strTrim c = "") :
    resolveChallenge (some c) t now = resolveTargetChallenge t now := by
  unfold resolveChallenge
  dsimp only
  rw [if_neg (by rw [h]; simp)]

theorem resolveTargetChallenge_some (t now : String) (h : strTrim t ≠ "") :
    resolveTargetChallenge (some t) now =
      some ("scavenger-consolidate|target=" ++ strTrim t ++ "|ts=" ++ now) := by
  unfold resolveTargetChallenge
  dsimp only
  rw [if_pos ((strLength_pos _).mpr h)]

/-! ## Proofs-route lemmas -/

theorem buildProofs_trace (addresses : List DerivedAddress)
    (usm : List (String × Nat)) (sign : ℤ → String → Except String String)
    (challenge : String) (ipk : Bool) :
    ∀ (idxs : List ℤ) (e : TraceEvent),
      e ∈ (buildProofs addresses usm sign challenge ipk idxs).2 →
      ∃ i, e = TraceEvent.signCall i challenge := by
  intro idxs
  induction idxs with
  | nil =>
    intro e he
    simp [buildProofs] at he
  | cons i rest ih =>
    intro e he
    unfold buildProofs at he
    cases hf : addresses.find? (fun a => (a.index : ℤ) == i) with
    | none =>
      rw [hf] at he
      simp at he
    | some addr =>
      rw [hf] at he
      cases hs : sign i challenge with
      | error m =>
        rw [hs] at he
        simp at he
        exact ⟨i, he⟩
      | ok s =>
        rw [hs] at he
        simp at he
        rcases he with he | he
        · exact ⟨i, he⟩
        · exact ih e he

theorem proofsPOST_invalid_eq (req : ProofsRequest) (now : String)
    (loadWallet : Except String (List DerivedAddress)) (receipts : List Receipt)
    (sign : ℤ → String → Except String String) (addresses : List DerivedAddress)
    (challenge : String)
    (hpw : ¬ req.password = "")
    (hch : resolveChallenge req.challenge req.targetAddress now = some challenge)
    (hlw : loadWallet = Except.ok addresses)
    (hinv : (requestedIndexes req.addressIndexes addresses).filter
        (fun i => !(addresses.any (fun a => (a.index : ℤ) == i))) ≠ []) :
    proofsPOST req now loadWallet receipts sign =
      (ProofsResponse.failure ("Invalid address indexes: " ++
        String.intercalate ", "
          (((requestedIndexes req.addressIndexes addresses).filter
            (fun i => !(addresses.any (fun a => (a.index : ℤ) == i)))).map
            (fun i => toString i))) 400, []) := by
  unfold proofsPOST
  rw [if_neg hpw, hch, hlw]
  dsimp only
  rw [if_pos (List.length_pos.mpr hinv)]

theorem proofsPOST_noEligible_eq (req : ProofsRequest) (now : String)
    (loadWallet : Except String (List DerivedAddress)) (receipts : List Receipt)
    (sign : ℤ → String → Except String String) (addresses : List DerivedAddress)
    (challenge : String)
    (hpw : ¬ req.password = "")
    (hch : resolveChallenge req.challenge req.targetAddress now = some challenge)
    (hlw : loadWallet = Except.ok addresses)
    (hinv : (requestedIndexes req.addressIndexes addresses).filter
        (fun i => !(addresses.any (fun a => (a.index : ℤ) == i))) = [])
    (hidx : (requestedIndexes req.addressIndexes addresses).filter
        (fun i => match addresses.find? (fun a => (a.index : ℤ) == i) with
          | some addr =>
            decide (0 < mapGetD (buildUserSolutions receipts) addr.bech32 0)
          | none => false) = []) :
    proofsPOST req now loadWallet receipts sign =
      (ProofsResponse.failure
        "No eligible addresses to sign (no addresses with user solutions)" 400,
       []) := by
  unfold proofsPOST
  rw [if_neg hpw, hch, hlw]
  dsimp only
  rw [if_neg (by rw [hinv]; simp), if_pos (by rw [hidx]; rfl)]

theorem proofsPOST_final_eq (req : ProofsRequest) (now : String)
    (loadWallet : Except String (List DerivedAddress)) (receipts : List Receipt)
    (sign : ℤ → String → Except String String) (addresses : List DerivedAddress)
    (challenge : String)
    (hpw : ¬ req.password = "")
    (hch : resolveChallenge req.challenge req.targetAddress now = some challenge)
    (hlw : loadWallet = Except.ok addresses)
    (hinv : (requestedIndexes req.addressIndexes addresses).filter
        (fun i => !(addresses.any (fun a => (a.index : ℤ) == i))) = [])
    (hidx : (requestedIndexes req.addressIndexes addresses).filter
        (fun i => match addresses.find? (fun a => (a.index : ℤ) == i) with
          | some addr =>
            decide (0 < mapGetD (buildUserSolutions receipts) addr.bech32 0)
          | none => false) ≠ []) :
    proofsPOST req now loadWallet receipts sign =
      (match buildProofs addresses (buildUserSolutions receipts) sign challenge
          req.includePublicKey
          ((requestedIndexes req.addressIndexes addresses).filter
            (fun i => match addresses.find? (fun a => (a.index : ℤ) == i) with
              | some addr =>
                decide (0 < mapGetD (buildUserSolutions receipts) addr.bech32 0)
              | none => false)) with
       | (Except.error msg, trace) =>
         (ProofsResponse.failure (orInternalError msg) 500, trace)
       | (Except.ok proofs, trace) =>
         (ProofsResponse.success challenge proofs.length proofs, trace)) := by
  unfold proofsPOST
  rw [if_neg hpw, hch, hlw]
  dsimp only
  rw [if_neg (by rw [hinv]; simp),
    if_neg (fun hz => hidx (List.length_eq_zero.mp hz))]

/-- Wherever a proofs request resolves its challenge to `challenge`, that
exact string is the one signed (every trace event is a `signMessage` call
on it) and the one returned in a successful response. -/
theorem proofsPOST_challenge_shape (req : ProofsRequest) (now : String)
    (loadWallet : Except String (List DerivedAddress)) (receipts : List Receipt)
    (sign : ℤ → String → Except String String) (challenge : String)
    (hch : resolveChallenge req.challenge req.targetAddress now = some challenge) :
    (∀ ch cnt ps, (proofsPOST req now loadWallet receipts sign).1 =
       ProofsResponse.success ch cnt ps → ch = challenge) ∧
    (∀ e ∈ (proofsPOST req now loadWallet receipts sign).2,
       ∃ i, e = TraceEvent.signCall i challenge) := by
  by_cases hpw : req.password = ""
  · unfold proofsPOST
    rw [if_pos hpw]
    exact ⟨fun ch cnt ps h => by simp at h, fun e he => by simp at he⟩
  · cases hlw : loadWallet with
    | error msg =>
      unfold proofsPOST
      rw [if_neg hpw, hch]
      exact ⟨fun ch cnt ps h => by simp at h, fun e he => by simp at he⟩
    | ok addresses =>
      by_cases hinv : (requestedIndexes req.addressIndexes addresses).filter
          (fun i => !(addresses.any (fun a => (a.index : ℤ) == i))) = []
      · by_cases hidx : (requestedIndexes req.addressIndexes addresses).filter
            (fun i => match addresses.find? (fun a => (a.index : ℤ) == i) with
              | some addr =>
                decide (0 < mapGetD (buildUserSolutions receipts) addr.bech32 0)
              | none => false) = []
        · rw [proofsPOST_noEligible_eq req now (Except.ok addresses) receipts
            sign addresses challenge hpw hch rfl hinv hidx]
          exact ⟨fun ch cnt ps h => by simp at h, fun e he => by simp at he⟩
        · rw [proofsPOST_final_eq req now (Except.ok addresses) receipts sign
            addresses challenge hpw hch rfl hinv hidx]
          rcases hbp : buildProofs addresses (buildUserSolutions receipts) sign
              challenge req.includePublicKey
              ((requestedIndexes req.addressIndexes addresses).filter
                (fun i => match addresses.find? (fun a => (a.index : ℤ) == i) with
                  | some addr =>
                    decide (0 < mapGetD (buildUserSolutions receipts) addr.bech32 0)
                  | none => false)) with ⟨r, tr⟩
          cases r with
          | error m =>
            dsimp only
            refine ⟨fun ch cnt ps h => by simp at h, fun e he => ?_⟩
            apply buildProofs_trace addresses (buildUserSolutions receipts) sign
              challenge req.includePublicKey
              ((requestedIndexes req.addressIndexes addresses).filter
                (fun i => match addresses.find? (fun a => (a.index : ℤ) == i) with
                  | some addr =>
                    decide (0 < mapGetD (buildUserSolutions receipts) addr.bech32 0)
                  | none => false)) e
            rw [hbp]
            exact he
          | ok proofs =>
            dsimp only
            refine ⟨fun ch cnt ps h => ?_, fun e he => ?_⟩
            · simp only [Prod.fst] at h
              cases h
              rfl
            · apply buildProofs_trace addresses (buildUserSolutions receipts) sign
                challenge req.includePublicKey
                ((requestedIndexes req.addressIndexes addresses).filter
                  (fun i => match addresses.find? (fun a => (a.index : ℤ) == i) with
                    | some addr =>
                      decide (0 < mapGetD (buildUserSolutions receipts) addr.bech32 0)
                    | none => false)) e
              rw [hbp]
              exact he
      · rw [proofsPOST_invalid_eq req now (Except.ok addresses) receipts sign
          addresses challenge hpw hch rfl hinv]
        exact ⟨fun ch cnt ps h => by simp at h, fun e he => by simp at he⟩

/-! ## Claim theorems -/

/-- C1: In the consolidate flow the waits `postDonateTo` inserts occur only
between attempts (the wait list has one entry per non-final attempt, none
before the first), the wait before the first retry equals
`initialBackoffSeconds` (which the flow normalises to at least 1, so
`1 ≤ b` holds for every value the flow passes down), and each subsequent
wait doubles the previous one; concretely, against a remote answering 429,
429, 200 with `maxRetries = 3` and `initialBackoffSeconds = 1`, exactly 3
attempts happen with waits of 1 and then 2 seconds before the success is
returned. -/
theorem claim1_backoff_between_attempts (remote : Nat → FetchOutcome)
    (maxRetries : Nat) (b : ℚ) (hb : 1 ≤ b) :
    ((postDonateTo remote maxRetries b).2.1 =
      (List.range ((postDonateTo remote maxRetries b).2.2 - 1)).map
        (fun i => b * 2 ^ i)) ∧
    (∀ x, 1 ≤ effInitialBackoff x) ∧
    postDonateTo mockRemote429 3 1 =
      (⟨200, RespData.json "ok"⟩, [1, 2], 3) := by
  refine ⟨?_, ?_, ?_⟩
  · have h := (postDonateTo_spec remote maxRetries b).2.2.2.2.2
    rwa [max_eq_right hb] at h
  · intro x
    cases x with
    | none => norm_num [effInitialBackoff]
    | some j =>
      cases j with
      | finite q => exact le_max_left 1 q
      | nan => norm_num [effInitialBackoff]
      | inf => norm_num [effInitialBackoff]
      | negInf => norm_num [effInitialBackoff]
  · have h1 : mockRemote429 1 = FetchOutcome.response 429 (RespData.raw "") := rfl
    have h2 : mockRemote429 2 = FetchOutcome.response 429 (RespData.raw "") := rfl
    have h3 : mockRemote429 3 = FetchOutcome.response 200 (RespData.json "ok") := rfl
    have e3 : donateLoop mockRemote429 3 3 ((1 : ℚ) * 2 * 2) =
        (⟨200, RespData.json "ok"⟩, [], 3) :=
      donateLoop_eq_ok h3 rfl
    have e2 : donateLoop mockRemote429 3 2 ((1 : ℚ) * 2) =
        (⟨200, RespData.json "ok"⟩, [2], 3) := by
      rw [donateLoop_eq_retry_response h2 rfl (Or.inl rfl) (by norm_num), e3]
      norm_num
    have e1 : donateLoop mockRemote429 3 1 1 =
        (⟨200, RespData.json "ok"⟩, [1, 2], 3) := by
      rw [donateLoop_eq_retry_response h1 rfl (Or.inl rfl) (by norm_num), e2]
    show donateLoop mockRemote429 3 1 (max 1 1) = _
    rw [max_self, e1]

/-- Witness for C1 at a remote that succeeds immediately, `maxRetries = 0`,
`initialBackoffSeconds = 1`. -/
theorem claim1_witness :
    (1 : ℚ) ≤ 1 ∧
    (((postDonateTo (fun _ => FetchOutcome.response 200 (RespData.json "ok"))
        0 1).2.1 =
      (List.range ((postDonateTo
        (fun _ => FetchOutcome.response 200 (RespData.json "ok")) 0 1).2.2 - 1)).map
        (fun i => (1 : ℚ) * 2 ^ i)) ∧
     (∀ x, 1 ≤ effInitialBackoff x) ∧
     postDonateTo mockRemote429 3 1 =
       (⟨200, RespData.json "ok"⟩, [1, 2], 3)) :=
  ⟨le_refl 1, claim1_backoff_between_attempts _ 0 1 (le_refl 1)⟩

/-- C2: For every `maxRetries` and every sequence of remote outcomes,
`postDonateTo` terminates (it is a total function here) after at most
`maxRetries + 1` attempts; every attempt before the final one had a
retryable outcome (429/408 response or thrown exception), a retryable
final outcome means the budget was exhausted, the returned value is the
final attempt's outcome (an exception surfacing as `{status: 0, response:
{error: message || 'Network error'}}` via `finalResult`), and with
`maxRetries = 0` the first outcome — retryable or not — is returned
immediately with no retry. -/
theorem claim2_terminates_bounded (remote : Nat → FetchOutcome)
    (maxRetries : Nat) (b : ℚ) :
    (postDonateTo remote maxRetries b).2.2 ≤ maxRetries + 1 ∧
    1 ≤ (postDonateTo remote maxRetries b).2.2 ∧
    (∀ k, 1 ≤ k → k < (postDonateTo remote maxRetries b).2.2 →
      retryableOutcome (remote k) = true) ∧
    (retryableOutcome (remote ((postDonateTo remote maxRetries b).2.2)) = true →
      (postDonateTo remote maxRetries b).2.2 = maxRetries + 1) ∧
    (postDonateTo remote maxRetries b).1 =
      finalResult (remote ((postDonateTo remote maxRetries b).2.2)) ∧
    (maxRetries = 0 → (postDonateTo remote maxRetries b).2.2 = 1) := by
  obtain ⟨h1, h2, h3, h4, h5, h6⟩ := postDonateTo_spec remote maxRetries b
  exact ⟨h2, h1, h3, h4, h5, fun h0 => by omega⟩

/-- Witness for C2: an always-throwing remote with `maxRetries = 0` makes
exactly one attempt and returns the wrapped exception. -/
theorem claim2_witness :
    (postDonateTo (fun _ => FetchOutcome.exception "boom") 0 5).2.2 ≤ 0 + 1 ∧
    (postDonateTo (fun _ => FetchOutcome.exception "boom") 0 5).1 =
      finalResult (FetchOutcome.exception "boom") :=
  ⟨(claim2_terminates_bounded (fun _ => FetchOutcome.exception "boom") 0 5).1,
   (claim2_terminates_bounded (fun _ => FetchOutcome.exception "boom") 0 5).2.2.2.2.1⟩

/-- C10: The consolidate flow normalises its retry parameters before use:
a non-integer `maxRetries` defaults to 3 and a negative integer clamps to
0 (a non-negative one is used as-is); a non-finite
`initialBackoffSeconds` defaults to 20 and any finite value clamps up to
1; and `postDonateTo` additionally clamps its backoff argument to at
least 1, as its recorded waits show. -/
theorem claim10_retry_param_normalization :
    (∀ x, jsIsInteger x = false → effMaxRetries x = 3) ∧
    (∀ n : ℤ, n < 0 → effMaxRetries (some (JSNum.finite (n : ℚ))) = 0) ∧
    (∀ n : ℤ, 0 ≤ n → effMaxRetries (some (JSNum.finite (n : ℚ))) = n.toNat) ∧
    (∀ x, jsIsFinite x = false → effInitialBackoff x = 20) ∧
    (∀ q : ℚ, q < 1 → effInitialBackoff (some (JSNum.finite q)) = 1) ∧
    (∀ q : ℚ, 1 ≤ q → effInitialBackoff (some (JSNum.finite q)) = q) ∧
    (∀ (remote : Nat → FetchOutcome) (maxRetries : Nat) (b : ℚ),
      (postDonateTo remote maxRetries b).2.1 =
        (List.range ((postDonateTo remote maxRetries b).2.2 - 1)).map
          (fun i => max 1 b * 2 ^ i)) := by
  refine ⟨?_, ?_, ?_, ?_, ?_, ?_, ?_⟩
  · intro x hx
    cases x with
    | none => rfl
    | some j =>
      cases j with
      | finite q =>
        have hne : q.den ≠ 1 := by simpa [jsIsInteger] using hx
        simp [effMaxRetries, hne]
      | nan => rfl
      | inf => rfl
      | negInf => rfl
  · intro n hn
    have heq : effMaxRetries (some (JSNum.finite (n : ℚ))) =
        if ((n : ℚ)).den = 1 then (max 0 ((n : ℚ)).num).toNat else 3 := rfl
    rw [heq, Rat.den_intCast, if_pos rfl, Rat.num_intCast, max_eq_left hn.le]
    rfl
  · intro n hn
    have heq : effMaxRetries (some (JSNum.finite (n : ℚ))) =
        if ((n : ℚ)).den = 1 then (max 0 ((n : ℚ)).num).toNat else 3 := rfl
    rw [heq, Rat.den_intCast, if_pos rfl, Rat.num_intCast, max_eq_right hn]
  · intro x hx
    cases x with
    | none => rfl
    | some j =>
      cases j with
      | finite q => simp [jsIsFinite] at hx
      | nan => rfl
      | inf => rfl
      | negInf => rfl
  · intro q hq
    simp [effInitialBackoff, max_eq_left hq.le]
  · intro q hq
    simp [effInitialBackoff, max_eq_right hq]
  · intro remote maxRetries b
    exact (postDonateTo_spec remote maxRetries b).2.2.2.2.2

/-- Witness for C10 at concrete parameter values. -/
theorem claim10_witness :
    effMaxRetries none = 3 ∧
    effMaxRetries (some (JSNum.finite ((-7 : ℤ) : ℚ))) = 0 ∧
    effInitialBackoff none = 20 ∧
    effInitialBackoff (some (JSNum.finite ((1 : ℚ) / 2))) = 1 :=
  ⟨claim10_retry_param_normalization.1 none rfl,
   claim10_retry_param_normalization.2.1 (-7) (by norm_num),
   claim10_retry_param_normalization.2.2.2.1 none rfl,
   claim10_retry_param_normalization.2.2.2.2.1 ((1 : ℚ) / 2) (by norm_num)⟩

/-- C5 counterexample: the claim fails at the empty address string.  A
receipt whose `address` is the empty (falsy) string is skipped by the
counting loop's truthiness guard, so `totalUserSolutions("")` is 0 while
the claimed count of receipts with that address and `isDevFee = false`
is 1. -/
theorem claim5_counterexample :
    totalUserSolutions [{ address := "", isDevFee := false }] "" ≠
      claimedUserSolutions [{ address := "", isDevFee := false }] "" := by
  decide

/-- C5 (amended): for every receipt list and every non-empty address
string, `totalUserSolutions(addr)` equals the count of receipts with that
address and `isDevFee = false`; dev-fee receipts, other addresses, and
falsy-address receipts never contribute, and unmatched addresses read as
zero. -/
theorem claim5_user_solution_count (rs : List Receipt) (addr : String)
    (h : addr ≠ "") :
    totalUserSolutions rs addr = claimedUserSolutions rs addr :=
  totalUserSolutions_eq_claimed rs addr h

/-- Witness for C5 on the example ledger. -/
theorem claim5_witness :
    ("addr1donordonordonordonor00" : String) ≠ "" ∧
    totalUserSolutions exReceipts "addr1donordonordonordonor00" =
      claimedUserSolutions exReceipts "addr1donordonordonordonor00" :=
  ⟨by decide, claim5_user_solution_count exReceipts _ (by decide)⟩

/-- C4: In the consolidate flow, no result entry's donor bech32 ever
equals the request's `recipientAddress` (the recipient is never signed
for or submitted to as its own donor), for every request, wallet, ledger,
signer and remote; and the proofs flow intentionally has no such
exclusion: a concrete proofs request targeting the donor address itself
returns a proof for that very address. -/
theorem claim4_no_self_donation :
    (∀ (req : ConsolidateRequest)
       (loadWallet : Except String (List DerivedAddress))
       (receipts : List Receipt) (sign : ℤ → String → Except String String)
       (remote : String → Nat → FetchOutcome) (entry : ResultEntry),
       entry ∈ ((consolidatePOST req loadWallet receipts sign remote).1).results →
       entry.donor ≠ req.recipientAddress) ∧
    ((proofsPOST ⟨"pw", none, some "addr1donordonordonordonor00", none, true⟩
        "TS" (Except.ok exAddrs) exReceipts exSignOk).1 =
      ProofsResponse.success
        "scavenger-consolidate|target=addr1donordonordonordonor00|ts=TS" 1
        [⟨0, "addr1donordonordonordonor00", "SIG[0]", 1, some "pk0"⟩]) := by
  constructor
  · intro req loadWallet receipts sign remote entry he
    obtain ⟨addresses, _, d, hd, hentry⟩ :=
      consolidatePOST_results_from_donors req loadWallet receipts sign remote
        entry he
    obtain ⟨_, hne, _⟩ := eligibleDonors_mem _ _ _ _ d hd
    have hdon := (processDonor_fst_fields sign remote (buildUserSolutions receipts)
      ("Assign accumulated Scavenger rights to: " ++ req.recipientAddress)
      req.recipientAddress req.dryRun (effMaxRetries req.maxRetries)
      (effInitialBackoff req.initialBackoffSeconds) d).2.1
    rw [hentry, hdon]
    exact hne
  · decide

/-- Witness for C4 on a concrete dry-run consolidate request. -/
theorem claim4_witness :
    (({ index := 0, donor := "addr1donordonordonordonor00",
        totalUserSolutions := 1, signed := true, signature := some "SIG[0]",
        curl := some "curl -L -X POST \"https://scavenger.prod.gd.midnighttge.io/donate_to/addr1recipientrecipient11/addr1donordonordonordonor00/SIG%5B0%5D\" -d \"\x7b\x7d\"",
        status := none, response := none } : ResultEntry) ∈
      ((consolidatePOST exReqDonorOnly (Except.ok exAddrs) exReceipts exSignOk
        exRemote).1).results) ∧
    ("addr1donordonordonordonor00" : String) ≠
      exReqDonorOnly.recipientAddress :=
  ⟨by decide,
   claim4_no_self_donation.1 exReqDonorOnly (Except.ok exAddrs) exReceipts
     exSignOk exRemote
     { index := 0, donor := "addr1donordonordonordonor00",
       totalUserSolutions := 1, signed := true, signature := some "SIG[0]",
       curl := some "curl -L -X POST \"https://scavenger.prod.gd.midnighttge.io/donate_to/addr1recipientrecipient11/addr1donordonordonordonor00/SIG%5B0%5D\" -d \"\x7b\x7d\"",
       status := none, response := none }
     (by decide)⟩

/-- C3 counterexample: the consolidate flow does not fail on an unknown
index.  With requested indexes `[0, 5]` where only 0 exists in the
derived set, the request succeeds and produces a result for index 0
only — the unknown index 5 is silently dropped, not reported. -/
theorem claim3_counterexample :
    ((consolidatePOST exReq (Except.ok exAddrs) exReceipts exSignOk
        exRemote).1).isSuccess = true ∧
    (((consolidatePOST exReq (Except.ok exAddrs) exReceipts exSignOk
        exRemote).1).results.map (fun e => e.index)) = [0] := by
  exact ⟨by decide, by decide⟩

/-- The donor-index determination keeps exactly the non-negative entries of
a non-empty `addressIndexes` array. -/
theorem requestedIndexes_some_ne_nil (is : List ℤ)
    (addresses : List DerivedAddress) (h : is ≠ []) :
    requestedIndexes (some is) addresses =
      is.filter (fun n => decide (0 ≤ n)) := by
  unfold requestedIndexes
  dsimp only
  rw [if_pos (List.length_pos.mpr h)]

/-- A negative integer never survives into the requested index list: the
`n >= 0` filter drops it before any validation, and the default (all
derived indexes) contains only non-negative values. -/
theorem requestedIndexes_nonneg (ai : Option (List ℤ))
    (addresses : List DerivedAddress) (n : ℤ) (hn : n < 0) :
    n ∉ requestedIndexes ai addresses := by
  intro hmem
  unfold requestedIndexes at hmem
  cases ai with
  | none =>
    rw [List.mem_map] at hmem
    obtain ⟨a, _, ha⟩ := hmem
    omega
  | some is =>
    dsimp only at hmem
    by_cases hlen : is.length > 0
    · rw [if_pos hlen] at hmem
      rw [List.mem_filter] at hmem
      have h2 := hmem.2
      simp at h2
      omega
    · rw [if_neg hlen] at hmem
      rw [List.mem_map] at hmem
      obtain ⟨a, _, ha⟩ := hmem
      omega

/-- C3 (amended): only the proofs flow validates `addressIndexes`, and
only for entries that survive the non-negative filter: a *non-negative*
integer entry not present in the derived-address set makes the proofs
request fail with a validation error naming the invalid indexes, with no
proof set produced and no signing performed.  A *negative* integer entry
is silently dropped by the `n >= 0` filter before validation ever runs
(in both flows) — concretely, a proofs request with `addressIndexes =
[0, -1]` succeeds and signs for index 0.  The consolidate flow performs
no index validation at all: unknown indexes are silently dropped from
the donor set (every produced result entry corresponds to an index that
exists in the derived set), and the request succeeds when other eligible
donors remain. -/
theorem claim3_unknown_indexes :
    (∀ (req : ProofsRequest) (now : String)
       (loadWallet : Except String (List DerivedAddress))
       (receipts : List Receipt) (sign : ℤ → String → Except String String)
       (addresses : List DerivedAddress) (challenge : String)
       (is : List ℤ) (n : ℤ),
       ¬ req.password = "" →
       resolveChallenge req.challenge req.targetAddress now = some challenge →
       loadWallet = Except.ok addresses →
       req.addressIndexes = some is →
       n ∈ is → 0 ≤ n →
       (∀ a ∈ addresses, (a.index : ℤ) ≠ n) →
       proofsPOST req now loadWallet receipts sign =
         (ProofsResponse.failure ("Invalid address indexes: " ++
           String.intercalate ", "
             (((requestedIndexes req.addressIndexes addresses).filter
               (fun i => !(addresses.any (fun a => (a.index : ℤ) == i)))).map
               (fun i => toString i))) 400, [])) ∧
    (∀ (ai : Option (List ℤ)) (addresses : List DerivedAddress) (n : ℤ),
       n < 0 → n ∉ requestedIndexes ai addresses) ∧
    (proofsPOST ⟨"pw", some "c", none, some [0, -1], true⟩ "TS"
        (Except.ok exAddrs) exReceipts exSignOk =
      (ProofsResponse.success "c" 1
        [⟨0, "addr1donordonordonordonor00", "SIG[0]", 1, some "pk0"⟩],
       [TraceEvent.signCall 0 "c"])) ∧
    (∀ (req : ConsolidateRequest)
       (loadWallet : Except String (List DerivedAddress))
       (receipts : List Receipt) (sign : ℤ → String → Except String String)
       (remote : String → Nat → FetchOutcome) (addresses : List DerivedAddress)
       (entry : ResultEntry),
       loadWallet = Except.ok addresses →
       entry ∈ ((consolidatePOST req loadWallet receipts sign remote).1).results →
       ∃ a ∈ addresses, a.index = entry.index) := by
  refine ⟨?_, requestedIndexes_nonneg, by decide, ?_⟩
  · intro req now loadWallet receipts sign addresses challenge is n hpw hch hlw
      hai hn hnn hnotin
    have hne : is ≠ [] := List.ne_nil_of_mem hn
    have hmem : n ∈ (requestedIndexes req.addressIndexes addresses).filter
        (fun i => !(addresses.any (fun a => (a.index : ℤ) == i))) := by
      rw [hai, requestedIndexes_some_ne_nil is addresses hne]
      rw [List.mem_filter]
      refine ⟨List.mem_filter.mpr ⟨hn, by simpa using hnn⟩, ?_⟩
      simp only [Bool.not_eq_true', List.any_eq_false]
      intro a ha
      simp only [beq_iff_eq]
      exact hnotin a ha
    exact proofsPOST_invalid_eq req now loadWallet receipts sign addresses
      challenge hpw hch hlw (List.ne_nil_of_mem hmem)
  · intro req loadWallet receipts sign remote addresses entry hlw he
    obtain ⟨addresses2, hlw2, d, hd, hentry⟩ :=
      consolidatePOST_results_from_donors req loadWallet receipts sign remote
        entry he
    have haddr2 : addresses2 = addresses := by
      rw [hlw] at hlw2
      exact (Except.ok.injEq _ _).mp hlw2.symm
    obtain ⟨hmem, _, _⟩ := eligibleDonors_mem _ _ _ _ d hd
    refine ⟨d, haddr2 ▸ hmem, ?_⟩
    rw [hentry,
      (processDonor_fst_fields sign remote (buildUserSolutions receipts)
        ("Assign accumulated Scavenger rights to: " ++ req.recipientAddress)
        req.recipientAddress req.dryRun (effMaxRetries req.maxRetries)
        (effInitialBackoff req.initialBackoffSeconds) d).1]

/-- Witness for C3: the proofs flow rejects the unknown non-negative
index 7; the consolidate flow's result entry for the example request maps
back to a derived address. -/
theorem claim3_witness :
    (¬ ("pw" : String) = "") ∧
    (proofsPOST ⟨"pw", some "c", none, some [0, 7], true⟩ "TS"
        (Except.ok exAddrs) exReceipts exSignOk =
      (ProofsResponse.failure "Invalid address indexes: 7" 400, [])) ∧
    (∃ a ∈ exAddrs, a.index =
      (({ index := 0, donor := "addr1donordonordonordonor00",
          totalUserSolutions := 1, signed := true, signature := some "SIG[0]",
          curl := some "curl -L -X POST \"https://scavenger.prod.gd.midnighttge.io/donate_to/addr1recipientrecipient11/addr1donordonordonordonor00/SIG%5B0%5D\" -d \"\x7b\x7d\"",
          status := none, response := none } : ResultEntry)).index) := by
  refine ⟨by decide, ?_, ?_⟩
  · have h := claim3_unknown_indexes.1 ⟨"pw", some "c", none, some [0, 7], true⟩
      "TS" (Except.ok exAddrs) exReceipts exSignOk exAddrs "c" [0, 7] 7
      (by decide) (by decide) rfl rfl (by decide) (by decide) (by decide)
    rw [h]
    decide
  · exact claim3_unknown_indexes.2.2.2 exReqDonorOnly (Except.ok exAddrs)
      exReceipts exSignOk exRemote exAddrs
      { index := 0, donor := "addr1donordonordonordonor00",
        totalUserSolutions := 1, signed := true, signature := some "SIG[0]",
        curl := some "curl -L -X POST \"https://scavenger.prod.gd.midnighttge.io/donate_to/addr1recipientrecipient11/addr1donordonordonordonor00/SIG%5B0%5D\" -d \"\x7b\x7d\"",
        status := none, response := none }
      rfl (by decide)

/-- C9: When the eligible donor set after filtering is empty, both
endpoints fail with their descriptive error (HTTP 400) and the returned
trace is empty: no `signMessage` call and no `fetch` is performed. -/
theorem claim9_empty_donor_fail_fast :
    (∀ (req : ConsolidateRequest)
       (loadWallet : Except String (List DerivedAddress))
       (receipts : List Receipt) (sign : ℤ → String → Except String String)
       (remote : String → Nat → FetchOutcome) (addresses : List DerivedAddress),
       ¬ req.password = "" →
       isValidAddr req.recipientAddress = true →
       loadWallet = Except.ok addresses →
       eligibleDonors req.addressIndexes addresses (buildUserSolutions receipts)
         req.recipientAddress = [] →
       consolidatePOST req loadWallet receipts sign remote =
         (ConsolidateResponse.failure "No donor addresses with user solutions"
           400, [])) ∧
    (∀ (req : ProofsRequest) (now : String)
       (loadWallet : Except String (List DerivedAddress))
       (receipts : List Receipt) (sign : ℤ → String → Except String String)
       (addresses : List DerivedAddress) (challenge : String),
       ¬ req.password = "" →
       resolveChallenge req.challenge req.targetAddress now = some challenge →
       loadWallet = Except.ok addresses →
       (requestedIndexes req.addressIndexes addresses).filter
         (fun i => !(addresses.any (fun a => (a.index : ℤ) == i))) = [] →
       (requestedIndexes req.addressIndexes addresses).filter
         (fun i => match addresses.find? (fun a => (a.index : ℤ) == i) with
           | some addr =>
             decide (0 < mapGetD (buildUserSolutions receipts) addr.bech32 0)
           | none => false) = [] →
       proofsPOST req now loadWallet receipts sign =
         (ProofsResponse.failure
           "No eligible addresses to sign (no addresses with user solutions)"
           400, [])) :=
  ⟨fun req loadWallet receipts sign remote addresses hpw haddr hlw hdon =>
    consolidatePOST_noDonors req loadWallet receipts sign remote addresses
      hpw haddr hlw hdon,
   fun req now loadWallet receipts sign addresses challenge hpw hch hlw hinv hidx =>
    proofsPOST_noEligible_eq req now loadWallet receipts sign addresses
      challenge hpw hch hlw hinv hidx⟩

/-- Witness for C9: with an empty receipts ledger nobody has solutions, so
both endpoints fail fast with an empty trace. -/
theorem claim9_witness :
    (consolidatePOST ⟨"pw", "addr1recipientrecipient11", none, false, none,
        none⟩ (Except.ok exAddrs) [] exSignOk exRemote =
      (ConsolidateResponse.failure "No donor addresses with user solutions"
        400, [])) ∧
    (proofsPOST ⟨"pw", some "c", none, none, true⟩ "TS" (Except.ok exAddrs)
        [] exSignOk =
      (ProofsResponse.failure
        "No eligible addresses to sign (no addresses with user solutions)"
        400, [])) :=
  ⟨claim9_empty_donor_fail_fast.1
    ⟨"pw", "addr1recipientrecipient11", none, false, none, none⟩
    (Except.ok exAddrs) [] exSignOk exRemote exAddrs (by decide) (by decide)
    rfl (by decide),
   claim9_empty_donor_fail_fast.2 ⟨"pw", some "c", none, none, true⟩ "TS"
    (Except.ok exAddrs) [] exSignOk exAddrs "c" (by decide) (by decide) rfl
    (by decide) (by decide)⟩

/-- C7: Once a consolidate request passes pre-flight (non-empty password,
valid recipient address, wallet unlocked, non-empty eligible donor set),
the outer response is `success` regardless of per-donor outcomes, one
result entry exists per donor, and a donor whose signing throws is
recorded in place as `{signed: false, signature: undefined, status: 0,
response: {error: message}}` without aborting the other donors. -/
theorem claim7_partial_failure_tolerance (req : ConsolidateRequest)
    (loadWallet : Except String (List DerivedAddress)) (receipts : List Receipt)
    (sign : ℤ → String → Except String String)
    (remote : String → Nat → FetchOutcome) (addresses : List DerivedAddress)
    (hpw : ¬ req.password = "")
    (haddr : isValidAddr req.recipientAddress = true)
    (hlw : loadWallet = Except.ok addresses)
    (hdon : eligibleDonors req.addressIndexes addresses
      (buildUserSolutions receipts) req.recipientAddress ≠ []) :
    ((consolidatePOST req loadWallet receipts sign remote).1).isSuccess = true ∧
    ((consolidatePOST req loadWallet receipts sign remote).1).results.length =
      (eligibleDonors req.addressIndexes addresses (buildUserSolutions receipts)
        req.recipientAddress).length ∧
    (∀ (k : Nat) (d : DerivedAddress) (msg : String),
      (eligibleDonors req.addressIndexes addresses (buildUserSolutions receipts)
        req.recipientAddress)[k]? = some d →
      sign (d.index : ℤ)
        ("Assign accumulated Scavenger rights to: " ++ req.recipientAddress) =
        Except.error msg →
      ((consolidatePOST req loadWallet receipts sign remote).1).results[k]? =
        some { index := d.index, donor := d.bech32,
               totalUserSolutions :=
                 mapGetD (buildUserSolutions receipts) d.bech32 0,
               signed := false, signature := none, curl := none,
               status := some 0,
               response := some (RespData.errorMsg (orSigningFailed msg)) }) := by
  rw [consolidatePOST_success_eq req loadWallet receipts sign remote addresses
    hpw haddr hlw hdon]
  refine ⟨rfl, by simp [ConsolidateResponse.results], ?_⟩
  intro k d msg hk hs
  simp only [ConsolidateResponse.results, List.map_map]
  rw [List.getElem?_map, hk, Option.map_some']
  rw [Function.comp_apply,
    processDonor_sign_error sign remote (buildUserSolutions receipts)
      ("Assign accumulated Scavenger rights to: " ++ req.recipientAddress)
      req.recipientAddress req.dryRun (effMaxRetries req.maxRetries)
      (effInitialBackoff req.initialBackoffSeconds) d msg hs]

/-- Witness for C7: one eligible donor whose signing always throws still
yields a successful outer response with the contained failure entry. -/
theorem claim7_witness :
    (¬ ("pw" : String) = "") ∧
    (((consolidatePOST exReqDonorOnly (Except.ok exAddrs) exReceipts exSignFail
        exRemote).1).isSuccess = true) := by
  have h := claim7_partial_failure_tolerance exReqDonorOnly (Except.ok exAddrs)
    exReceipts exSignFail exRemote exAddrs (by decide) (by decide) rfl
    (by decide)
  exact ⟨by decide, h.1⟩

/-- C6 counterexample: not every dry-run result entry carries a curl
string.  With a signer that throws, the dry-run response still succeeds
but its single result entry has `curl := none` (and `signed := false`),
refuting "every result entry contains a curl string". -/
theorem claim6_counterexample :
    exReqDonorOnly.dryRun = true ∧
    (((consolidatePOST exReqDonorOnly (Except.ok exAddrs) exReceipts exSignFail
        exRemote).1).results.map (fun e => e.curl)) = [none] := by
  exact ⟨rfl, by decide⟩

/-- C6 (amended): a dry-run consolidate request performs no network call
(no `fetch` event ever appears in the trace), and every result entry for
which signing succeeded carries a curl string embedding the POST URL
`<base>/donate_to/<recipient>/<donor>/<sig>` where `<sig>` is exactly
`encodeURIComponent` of the signature computed for that donor; entries
whose signing threw carry no curl string (see the counterexample). -/
theorem claim6_dryrun_no_network (req : ConsolidateRequest)
    (loadWallet : Except String (List DerivedAddress)) (receipts : List Receipt)
    (sign : ℤ → String → Except String String)
    (remote : String → Nat → FetchOutcome)
    (hdry : req.dryRun = true) :
    (∀ e ∈ (consolidatePOST req loadWallet receipts sign remote).2,
      e.isFetchCall = false) ∧
    (∀ entry ∈ ((consolidatePOST req loadWallet receipts sign remote).1).results,
      entry.signed = true →
      ∃ s, sign (entry.index : ℤ)
          ("Assign accumulated Scavenger rights to: " ++ req.recipientAddress) =
          Except.ok s ∧
        entry.signature = some s ∧
        entry.curl = some (mkCurl (mkDonateUrl req.recipientAddress entry.donor
          (encodeURIComponent s)))) := by
  constructor
  · intro e he
    obtain ⟨addresses, _, d, hd, hmem⟩ :=
      consolidatePOST_trace_from_donors req loadWallet receipts sign remote e he
    rw [hdry] at hmem
    rw [(processDonor_dryRun sign remote (buildUserSolutions receipts)
      ("Assign accumulated Scavenger rights to: " ++ req.recipientAddress)
      req.recipientAddress (effMaxRetries req.maxRetries)
      (effInitialBackoff req.initialBackoffSeconds) d).1] at hmem
    simp only [List.mem_singleton] at hmem
    rw [hmem]
    rfl
  · intro entry hentry hsigned
    obtain ⟨addresses, _, d, hd, hentry_eq⟩ :=
      consolidatePOST_results_from_donors req loadWallet receipts sign remote
        entry hentry
    rw [hdry] at hentry_eq
    obtain ⟨hidx, hdon, _⟩ := processDonor_fst_fields sign remote
      (buildUserSolutions receipts)
      ("Assign accumulated Scavenger rights to: " ++ req.recipientAddress)
      req.recipientAddress true (effMaxRetries req.maxRetries)
      (effInitialBackoff req.initialBackoffSeconds) d
    obtain ⟨s, hs, hsig, hcurl⟩ :=
      (processDonor_dryRun sign remote (buildUserSolutions receipts)
        ("Assign accumulated Scavenger rights to: " ++ req.recipientAddress)
        req.recipientAddress (effMaxRetries req.maxRetries)
        (effInitialBackoff req.initialBackoffSeconds) d).2
        (by rw [← hentry_eq]; exact hsigned)
    refine ⟨s, ?_, ?_, ?_⟩
    · rw [hentry_eq, hidx]
      exact hs
    · rw [hentry_eq]
      exact hsig
    · rw [hentry_eq, hdon]
      exact hcurl

/-- Witness for C6 on a dry-run request with a working signer. -/
theorem claim6_witness :
    exReqDonorOnly.dryRun = true ∧
    (∀ e ∈ (consolidatePOST exReqDonorOnly (Except.ok exAddrs) exReceipts
        exSignOk exRemote).2, e.isFetchCall = false) :=
  ⟨rfl,
   (claim6_dryrun_no_network exReqDonorOnly (Except.ok exAddrs) exReceipts
     exSignOk exRemote rfl).1⟩

/-- C8 counterexample: a caller-supplied challenge is not used verbatim.
Supplying the non-empty challenge `" x"` makes the endpoint sign and
return `"x"` — the string is trimmed, so the challenge used differs
character-for-character from the caller's. -/
theorem claim8_counterexample :
    (proofsPOST ⟨"pw", some " x", none, none, true⟩ "TS" (Except.ok exAddrs)
        exReceipts exSignOk).1 =
      ProofsResponse.success "x" 1
        [⟨0, "addr1donordonordonordonor00", "SIG[0]", 1, some "pk0"⟩] ∧
    ("x" : String) ≠ " x" := by
  exact ⟨by decide, by decide⟩

/-- C8 (amended): whenever the caller supplies a challenge whose trim is
non-empty, the challenge used for signing (every signing call in the
trace) and returned in a successful response is the caller's string with
leading/trailing whitespace trimmed; only when no such challenge is given
(absent, or trim-empty) and a target address with non-empty trim is
supplied is the challenge synthesized as
`"scavenger-consolidate|target=<trimmed targetAddress>|ts=<timestamp>"`. -/
theorem claim8_challenge_resolution (req : ProofsRequest) (now : String)
    (loadWallet : Except String (List DerivedAddress)) (receipts : List Receipt)
    (sign : ℤ → String → Except String String) :
    (∀ c, req.challenge = some c → strTrim c ≠ "" →
      (∀ ch cnt ps, (proofsPOST req now loadWallet receipts sign).1 =
        ProofsResponse.success ch cnt ps → ch = strTrim c) ∧
      (∀ e ∈ (proofsPOST req now loadWallet receipts sign).2,
        ∃ i, e = TraceEvent.signCall i (strTrim c))) ∧
    (∀ t, (req.challenge = none ∨
        ∃ c, req.challenge = some c ∧ strTrim c = "") →
      req.targetAddress = some t → strTrim t ≠ "" →
      ∀ ch cnt ps, (proofsPOST req now loadWallet receipts sign).1 =
        ProofsResponse.success ch cnt ps →
        ch = "scavenger-consolidate|target=" ++ strTrim t ++ "|ts=" ++ now) := by
  constructor
  · intro c hc htrim
    apply proofsPOST_challenge_shape
    rw [hc]
    exact resolveChallenge_user c req.targetAddress now htrim
  · intro t hdef ht htrim
    have hres : resolveChallenge req.challenge req.targetAddress now =
        some ("scavenger-consolidate|target=" ++ strTrim t ++ "|ts=" ++ now) := by
      rcases hdef with hnone | ⟨c, hc, hct⟩
      · rw [hnone]
        have hstep : resolveChallenge none req.targetAddress now =
            resolveTargetChallenge req.targetAddress now := rfl
        rw [hstep, ht]
        exact resolveTargetChallenge_some t now htrim
      · rw [hc, resolveChallenge_user_empty c req.targetAddress now hct, ht]
        exact resolveTargetChallenge_some t now htrim
    exact (proofsPOST_challenge_shape req now loadWallet receipts sign _ hres).1

/-- Witness for C8: against the example wallet, the challenge `" x"` is
used (and returned) as its trimmed form `"x"`. -/
theorem claim8_witness :
    strTrim " x" ≠ "" ∧ ("x" : String) = strTrim " x" :=
  ⟨by decide,
   ((claim8_challenge_resolution ⟨"pw", some " x", none, none, true⟩ "TS"
       (Except.ok exAddrs) exReceipts exSignOk).1 " x" rfl (by decide)).1
     "x" 1 [⟨0, "addr1donordonordonordonor00", "SIG[0]", 1, some "pk0"⟩]
     (by decide)⟩
